import Mathlib

/-!
Shallow embedding of the account/credential engine of the
`gemini-business-api` repository, together with proofs settling the
frozen claims about it.

Sources embedded (translated definition by definition):
  * `src/app/models/account.py`   — `AccountStatus`, `Account` and its methods
  * `src/app/core/account_pool.py`— `AccountPool.get_available_account`,
    `handle_error`, `get_pool_status`
  * `src/app/core/token_manager.py` — `_should_refresh`, `_refresh_token`,
    `_generate_jwt`, `_base64url_encode`, `get_token`
  * `src/app/core/gemini_client.py` — `send_message_with_retry`
  * `src/app/config.py`           — `ConfigLoader.load_accounts`, `_create_account`

Modelling conventions: instants (Python `time.time()`) are integers passed
explicitly as a `now` argument at every call the source makes to the clock;
byte strings are `List Nat` with an explicit `% 256` where the source relies
on byte width; fallible code returns `Except`; methods that mutate `self`
return the updated value next to their result.
-/

/-- Embeds `AccountStatus` from `src/app/models/account.py`. -/
inductive AccountStatus
  | active
  | cooldown401
  | cooldown403
  | cooldown429
  | expired
  | expiringSoon
  | error
deriving DecidableEq, Repr

/-- Embeds the mutable runtime state of `Account` (`src/app/models/account.py`).
The credential fields that never influence control flow (cookies, user agent)
are kept only as the identity-bearing `email` and `teamId`. `created_at` and
`expires_at` are already-parsed Unix instants (`_parse_timestamp` output). -/
structure Account where
  email : String
  teamId : String
  createdAt : Int
  expiresAt : Option Int
  status : AccountStatus
  cooldownUntil : Int
  requestCount : Nat
  errorCount : Nat
  lastUsedAt : Int
deriving DecidableEq, Repr

/-- Embeds `Account.is_expired`.  The source compares
`age_seconds / 86400 >= 30` in real arithmetic, which is algebraically the
comparison `age_seconds >= 2592000` used here. -/
def Account.isExpired (a : Account) (now : Int) : Bool :=
  match a.expiresAt with
  | some e => decide (now > e)
  | none => decide (now - a.createdAt ≥ 2592000)

/-- Embeds `Account.get_remaining_days` (Python `int()` truncates toward
zero, as `Int.tdiv` does). -/
def Account.getRemainingDays (a : Account) (now : Int) : Int :=
  match a.expiresAt with
  | some e => max 0 (Int.tdiv (e - now) 86400)
  | none => max 0 (Int.tdiv (2592000 - (now - a.createdAt)) 86400)

/-- Embeds `Account.should_warn_expiry`. -/
def Account.shouldWarnExpiry (a : Account) (now : Int) : Bool :=
  decide (0 < a.getRemainingDays now ∧ a.getRemainingDays now < 3)

/-- Embeds `Account.get_account_age_days`. -/
def Account.getAccountAgeDays (a : Account) (now : Int) : Int :=
  Int.tdiv (now - a.createdAt) 86400

/-- Embeds `Account.is_in_cooldown`: returns the boolean result together
with the possibly-mutated account (an elapsed cooldown is cleared in place,
and a cooldown status is reset to `active`). -/
def Account.isInCooldown (a : Account) (now : Int) : Bool × Account :=
  if a.cooldownUntil = 0 then (false, a)
  else if now ≥ a.cooldownUntil then
    (false,
      { a with
        cooldownUntil := 0
        status :=
          if a.status = .cooldown401 ∨ a.status = .cooldown403 ∨
              a.status = .cooldown429 then
            AccountStatus.active
          else a.status })
  else (true, a)

/-- Embeds `Account.set_cooldown`. -/
def Account.setCooldown (a : Account) (now : Int) (seconds : Int)
    (status : AccountStatus) : Account :=
  { a with
    cooldownUntil := now + seconds
    status := status
    errorCount := a.errorCount + 1 }

/-- Embeds `Account.is_available`: boolean result plus the mutated account
(expiry stamps the status in place, the cooldown check may self-clear). -/
def Account.isAvailable (a : Account) (now : Int) : Bool × Account :=
  if a.isExpired now then (false, { a with status := .expired })
  else
    let r := a.isInCooldown now
    if r.1 then (false, r.2)
    else if r.2.status = .expired ∨ r.2.status = .error then (false, r.2)
    else (true, r.2)

/-- Embeds `Account.mark_used`. -/
def Account.markUsed (a : Account) (now : Int) : Account :=
  { a with lastUsedAt := now, requestCount := a.requestCount + 1 }

/-- Embeds `AccountPool.handle_error` (`src/app/core/account_pool.py`).
The method only mutates the passed account, so it is a function on
`Account`; `status_code` is the integer HTTP status. -/
def handleError (a : Account) (now : Int) (statusCode : Int) : Account :=
  if statusCode = 401 then a.setCooldown now 7200 .cooldown401
  else if statusCode = 403 then a.setCooldown now 7200 .cooldown403
  else if statusCode = 429 then a.setCooldown now 14400 .cooldown429
  else
    let a' := { a with errorCount := a.errorCount + 1 }
    if a'.errorCount ≥ 5 then { a' with status := .error } else a'

/-- Embeds the mutable state of `AccountPool`. -/
structure AccountPool where
  accounts : List Account
  currentIndex : Nat
deriving DecidableEq, Repr

/-- Embeds the `while attempts < max_attempts` scan loop inside
`AccountPool.get_available_account`; `fuel` is the remaining attempt budget
(initially `len(accounts)`).  The cursor is always kept below the pool
length by the pool's operations, so the `none` lookup branch is
unreachable in every reachable pool state. -/
def getAvailLoop (now : Int) : Nat → List Account → Nat →
    Option (Account × List Account × Nat)
  | 0, _, _ => none
  | fuel + 1, accounts, idx =>
    match accounts.get? idx with
    | none => none
    | some account =>
      let idx' := (idx + 1) % accounts.length
      let r := account.isAvailable now
      let accounts' := accounts.set idx r.2
      if r.1 then
        let au := r.2.markUsed now
        some (au, accounts'.set idx au, idx')
      else getAvailLoop now fuel accounts' idx'

/-- Embeds `AccountPool.get_available_account`. -/
def AccountPool.getAvailableAccount (p : AccountPool) (now : Int) :
    Except String (Account × AccountPool) :=
  if p.accounts.isEmpty then .error "No accounts configured in pool"
  else
    match getAvailLoop now p.accounts.length p.accounts p.currentIndex with
    | some (a, accs, idx) => .ok (a, ⟨accs, idx⟩)
    | none => .error "No available accounts (all in cooldown or expired)"

/-- Iterates `get_available_account` `n` times, collecting each call's
result (returned account or error message) and the final pool state.
A failed call leaves the pool unchanged, as in the source. -/
def acquireN (now : Int) : Nat → AccountPool →
    List (Except String Account) × AccountPool
  | 0, p => ([], p)
  | n + 1, p =>
    match p.getAvailableAccount now with
    | .ok (a, p') =>
      let r := acquireN now n p'
      (.ok a :: r.1, r.2)
    | .error e =>
      let r := acquireN now n p
      (.error e :: r.1, r.2)

/-- Embeds the character table of Python `base64.urlsafe_b64encode`:
index `0..25` map to `A..Z`, `26..51` to `a..z`, `52..61` to `0..9`,
`62` to `-` and `63` to `_`. -/
def b64Char (n : Nat) : Char :=
  if n < 26 then Char.ofNat (65 + n)
  else if n < 52 then Char.ofNat (97 + (n - 26))
  else if n < 62 then Char.ofNat (48 + (n - 52))
  else if n = 62 then '-' else '_'

/-- Embeds `TokenManager._base64url_encode` on a byte list: urlsafe
base64 with the `=` padding already stripped (`.rstrip("=")`), so a final
group of one byte yields two characters and a final group of two bytes
yields three. -/
def b64urlEncodeList : List Nat → List Char
  | [] => []
  | [b1] =>
    let v1 := b1 % 256
    [b64Char (v1 / 4), b64Char (v1 % 4 * 16)]
  | [b1, b2] =>
    let v1 := b1 % 256
    let v2 := b2 % 256
    [b64Char (v1 / 4), b64Char (v1 % 4 * 16 + v2 / 16), b64Char (v2 % 16 * 4)]
  | b1 :: b2 :: b3 :: rest =>
    let v1 := b1 % 256
    let v2 := b2 % 256
    let v3 := b3 % 256
    b64Char (v1 / 4) :: b64Char (v1 % 4 * 16 + v2 / 16) ::
      b64Char (v2 % 16 * 4 + v3 / 64) :: b64Char (v3 % 64) ::
      b64urlEncodeList rest

/-- String form of `TokenManager._base64url_encode`. -/
def b64urlEncode (bs : List Nat) : String := String.mk (b64urlEncodeList bs)

/-- Value of one character of the standard base64 alphabet used by Python
`base64.b64decode` (the secret arrives standard-encoded, not urlsafe). -/
def b64StdVal (c : Char) : Nat :=
  if 'A' ≤ c ∧ c ≤ 'Z' then c.toNat - 65
  else if 'a' ≤ c ∧ c ≤ 'z' then c.toNat - 97 + 26
  else if '0' ≤ c ∧ c ≤ '9' then c.toNat - 48 + 52
  else if c = '+' then 62
  else if c = '/' then 63
  else 0

/-- Embeds Python `base64.b64decode` on a character list: four characters
to three bytes, with `=` padding shortening the final group. -/
def b64decodeList : List Char → List Nat
  | c1 :: c2 :: c3 :: c4 :: rest =>
    let v1 := b64StdVal c1
    let v2 := b64StdVal c2
    if c3 = '=' then [v1 * 4 + v2 / 16]
    else
      let v3 := b64StdVal c3
      if c4 = '=' then [v1 * 4 + v2 / 16, v2 % 16 * 16 + v3 / 4]
      else
        (v1 * 4 + v2 / 16) :: (v2 % 16 * 16 + v3 / 4) ::
          (v3 % 4 * 64 + b64StdVal c4) :: b64decodeList rest
  | _ => []

/-- String form of Python `base64.b64decode`. -/
def b64decode (s : String) : List Nat := b64decodeList s.toList

/-- UTF-8 bytes of the ASCII strings handled by the token code
(Python `str.encode()`; every string the minter serialises is ASCII, where
UTF-8 bytes coincide with code points). -/
def strBytes (s : String) : List Nat := s.toList.map Char.toNat

/-- Embeds the JWT payload dictionary built inside
`TokenManager._generate_jwt`. -/
structure JwtPayload where
  iss : String
  aud : String
  sub : String
  iat : Int
  exp : Int
  nbf : Int
deriving DecidableEq, Repr

/-- Embeds Python `json.dumps` on the header dictionary
`{"alg": "HS256", "typ": "JWT"}` of `_generate_jwt`. -/
def jwtHeaderJson : String :=
  "\x7b\"alg\": \"HS256\", \"typ\": \"JWT\"\x7d"

/-- Embeds Python `json.dumps` on the payload dictionary of
`_generate_jwt` (insertion order of the keys, default separators). -/
def jwtPayloadJson (p : JwtPayload) : String :=
  "\x7b\"iss\": \"" ++ p.iss ++ "\", \"aud\": \"" ++ p.aud ++
    "\", \"sub\": \"" ++ p.sub ++ "\", \"iat\": " ++ toString p.iat ++
    ", \"exp\": " ++ toString p.exp ++ ", \"nbf\": " ++ toString p.nbf ++
    "\x7d"

/-- Embeds `TokenManager._generate_jwt`.  `hmacSha256 key message` stands
for `hmac.new(key, message, hashlib.sha256).digest()`, the one external
primitive of the function; `now` is `int(time.time())` and
`token_validity_seconds = 300`. -/
def generateJwt (hmacSha256 : List Nat → List Nat → List Nat)
    (xsrfToken : String) (teamId : String) (now : Int) : String :=
  let keyBytes := b64decode xsrfToken
  let payload : JwtPayload :=
    ⟨"gemini-business", "gemini-business-api", teamId, now, now + 300, now⟩
  let headerB64 := b64urlEncode (strBytes jwtHeaderJson)
  let payloadB64 := b64urlEncode (strBytes (jwtPayloadJson payload))
  let message := headerB64 ++ "." ++ payloadB64
  let signature := hmacSha256 keyBytes (strBytes message)
  message ++ "." ++ b64urlEncode signature

/-- Embeds the mutable token state of `TokenManager`
(`jwt_token`, `token_expires_at`, `xsrf_token`, `key_id`). -/
structure TokenState where
  jwtToken : Option String
  tokenExpiresAt : Int
  xsrfToken : Option String
  keyId : Option String
deriving DecidableEq, Repr

/-- Python truthiness of the optional strings tested with
`if not self.jwt_token` / `if not self.xsrf_token`: `None` and the empty
string are falsy. -/
def optStrFalsy : Option String → Bool
  | none => true
  | some s => s.isEmpty

/-- Embeds `TokenManager._should_refresh`
(`refresh_before_seconds = 30`). -/
def shouldRefresh (st : TokenState) (now : Int) : Bool :=
  if optStrFalsy st.jwtToken then true
  else decide (now ≥ st.tokenExpiresAt - 30)

/-- Outcome of the secret-fetch `GET /auth/getoxsrf` performed by
`_refresh_token`: either a response carrying the HTTP status and the two
optional JSON fields, or a transport-level exception. -/
inductive FetchResult
  | response (status : Int) (xsrfToken : Option String) (keyId : Option String)
  | netError
deriving DecidableEq, Repr

/-- Embeds `TokenManager._refresh_token` as a function of the fetch
outcome: returns `true` with the refreshed state on success, `false` with
the state the method leaves behind when it raises `Token refresh failed`.
On any failure path the `except` clause resets `jwt_token` and
`token_expires_at` only; `xsrf_token`/`key_id` keep whatever the body
assigned before the raise (nothing on non-200, the fetched values when the
field is missing). -/
def refreshToken (hmacSha256 : List Nat → List Nat → List Nat)
    (teamId : String) (fetch : FetchResult) (now : Int) (st : TokenState) :
    Bool × TokenState :=
  match fetch with
  | .netError => (false, { st with jwtToken := none, tokenExpiresAt := 0 })
  | .response status x k =>
    if status ≠ 200 then
      (false, { st with jwtToken := none, tokenExpiresAt := 0 })
    else
      let st1 := { st with xsrfToken := x, keyId := k }
      if optStrFalsy x then
        (false, { st1 with jwtToken := none, tokenExpiresAt := 0 })
      else
        (true,
          { st1 with
            jwtToken := some (generateJwt hmacSha256 (x.getD "") teamId now)
            tokenExpiresAt := now + 300 })

/-- Embeds `TokenManager.get_token`: result (token or raised message),
state after the call, and how many `_refresh_token` network refreshes the
call performed. -/
def getToken (hmacSha256 : List Nat → List Nat → List Nat)
    (teamId : String) (fetch : FetchResult) (now : Int) (st : TokenState) :
    Except String String × TokenState × Nat :=
  if shouldRefresh st now then
    match refreshToken hmacSha256 teamId fetch now st with
    | (false, st') => (.error "Token refresh failed", st', 1)
    | (true, st') =>
      match st'.jwtToken with
      | some t => (.ok t, st', 1)
      | none => (.error "Failed to obtain JWT token", st', 1)
  else
    match st.jwtToken with
    | some t => (.ok t, st, 0)
    | none => (.error "Failed to obtain JWT token", st, 0)

/-- Outcome of one `send_message` attempt inside
`GeminiClient.send_message_with_retry`: a normal return, an
`httpx.HTTPStatusError` carrying the response status, or an
`httpx.RequestError`.  `id` tags the concrete exception object so that
"the last error is re-raised unchanged" is expressible. -/
inductive AttemptOutcome
  | success (v : Nat)
  | httpStatusError (status : Int) (id : Nat)
  | requestError (id : Nat)
deriving DecidableEq, Repr

/-- The error value `send_message_with_retry` can raise: one of the two
caught exception kinds (with its identity tag), re-raised either
immediately (client-class status) or as `last_error` after the loop. -/
inductive RaisedError
  | httpStatus (status : Int) (id : Nat)
  | request (id : Nat)
deriving DecidableEq, Repr

/-- Result of a `send_message_with_retry` call in the model: the returned
value or raised error, the session cache after the call, and the session
cache observed at the start of each attempt that actually began (in
order). -/
structure RetryResult where
  result : Except (Option RaisedError) Nat
  sessionName : Option String
  sessionAtAttemptStart : List (Option String)
deriving Repr

/-- Embeds the `for attempt in range(max_retries + 1)` loop of
`GeminiClient.send_message_with_retry`.  `attempts i` is the outcome of
the `send_message` call of attempt `i`; `fresh i` is the session name
`_create_session` would cache if attempt `i` finds the cache empty
(`send_message` lazily creates the session before sending).  The
`status == 401` branch clearing `_session_name` is translated exactly
where the source has it: after the `4xx and not 429` re-raise. -/
def retryLoop (attempts : Nat → AttemptOutcome) (fresh : Nat → String) :
    Nat → Nat → Option RaisedError → Option String → List (Option String) →
    RetryResult
  | _, 0, lastError, session, hist =>
    ⟨.error lastError, session, hist.reverse⟩
  | i, fuel + 1, _lastError, session, hist =>
    let hist' := session :: hist
    let session' := if session.isNone then some (fresh i) else session
    match attempts i with
    | .success v => ⟨.ok v, session', hist'.reverse⟩
    | .httpStatusError s id =>
      if 400 ≤ s ∧ s < 500 ∧ s ≠ 429 then
        ⟨.error (some (.httpStatus s id)), session', hist'.reverse⟩
      else
        let session'' := if s = 401 then none else session'
        retryLoop attempts fresh (i + 1) fuel (some (.httpStatus s id))
          session'' hist'
    | .requestError id =>
      retryLoop attempts fresh (i + 1) fuel (some (.request id)) session' hist'

/-- Embeds `GeminiClient.send_message_with_retry` (entered with the given
cached `_session_name`). -/
def sendMessageWithRetry (attempts : Nat → AttemptOutcome)
    (fresh : Nat → String) (maxRetries : Nat) (session : Option String) :
    RetryResult :=
  retryLoop attempts fresh 0 (maxRetries + 1) none session []

/-- Embeds one entry of the `accounts` array consumed by
`ConfigLoader._create_account` (`src/app/config.py`): each required or
optional key is present or absent. -/
structure AccountData where
  email : Option String
  team_id : Option String
  secure_c_ses : Option String
  host_c_oses : Option String
  csesidx : Option String
  user_agent : Option String
  created_at : Option String
  expires_at : Option String
deriving DecidableEq, Repr

/-- The `missing_fields` list computed by `_create_account`, in the order
of `required_fields`. -/
def missingFields (d : AccountData) : List String :=
  (if d.email.isNone then ["email"] else []) ++
  (if d.team_id.isNone then ["team_id"] else []) ++
  (if d.secure_c_ses.isNone then ["secure_c_ses"] else []) ++
  (if d.host_c_oses.isNone then ["host_c_oses"] else []) ++
  (if d.csesidx.isNone then ["csesidx"] else []) ++
  (if d.user_agent.isNone then ["user_agent"] else []) ++
  (if d.created_at.isNone then ["created_at"] else [])

/-- The loaded account record produced from one valid entry (the field
values handed to the `Account` constructor). -/
structure LoadedAccount where
  email : String
  team_id : String
  secure_c_ses : String
  host_c_oses : String
  csesidx : String
  user_agent : String
  created_at : String
  expires_at : Option String
deriving DecidableEq, Repr

/-- Embeds `ConfigLoader._create_account`: raises
`ValueError("Missing required fields: ...")` when any required key is
absent, otherwise builds the account from the fields. -/
def createAccount (d : AccountData) : Except String LoadedAccount :=
  if missingFields d ≠ [] then
    .error ("Missing required fields: " ++ String.intercalate ", " (missingFields d))
  else
    .ok
      ⟨d.email.getD "", d.team_id.getD "", d.secure_c_ses.getD "",
        d.host_c_oses.getD "", d.csesidx.getD "", d.user_agent.getD "",
        d.created_at.getD "", d.expires_at⟩

/-- Embeds the `for idx, account_data in enumerate(accounts_data)` loop of
`ConfigLoader.load_accounts`: the first failing entry re-raises as
`ValueError(f"Invalid account failure")`, aborting the whole load. -/
def loadAccountsLoop : Nat → List AccountData → Except String (List LoadedAccount)
  | _, [] => .ok []
  | idx, d :: rest =>
    match createAccount d with
    | .ok a =>
      match loadAccountsLoop (idx + 1) rest with
      | .ok as => .ok (a :: as)
      | .error e => .error e
    | .error e =>
      .error ("Invalid account #" ++ toString (idx + 1) ++ ": " ++ e)

/-- Embeds `ConfigLoader.load_accounts` after the file has parsed:
an empty `accounts` array raises, otherwise the entries are processed in
order. -/
def loadAccounts (ds : List AccountData) : Except String (List LoadedAccount) :=
  if ds.isEmpty then .error "No accounts found in configuration"
  else loadAccountsLoop 0 ds

/-- The aggregate counters assembled by `AccountPool.get_pool_status`
(the floating-point `average_age_days` field is not modelled; no claim
touches it). -/
structure PoolStatus where
  total : Nat
  active : Nat
  cooldown : Nat
  expired : Nat
  expiringSoon : Nat
deriving DecidableEq, Repr

/-- Embeds `AccountPool.get_pool_status` (`src/app/core/account_pool.py`).
The `active` list comprehension calls `is_available()` on every account,
mutating the stored accounts; the later comprehensions then read the
mutated statuses, exactly as the Python evaluation order does. -/
def AccountPool.getPoolStatus (p : AccountPool) (now : Int) :
    PoolStatus × AccountPool :=
  let checked := p.accounts.map (fun a => a.isAvailable now)
  let accounts' := checked.map (fun r => r.2)
  let active := (checked.filter (fun r => r.1)).length
  let cooldown :=
    (accounts'.filter (fun a =>
      a.status = .cooldown401 ∨ a.status = .cooldown403 ∨
        a.status = .cooldown429)).length
  let expired := (accounts'.filter (fun a => a.isExpired now)).length
  let expiringSoon := (accounts'.filter (fun a => a.shouldWarnExpiry now)).length
  (⟨p.accounts.length, active, cooldown, expired, expiringSoon⟩,
    ⟨accounts', p.currentIndex⟩)

/-- The fields of the dictionary built by `Account.get_status_info` that
the claims reach (status is read before `is_available()` runs, and
`cooldown_remaining` is computed from the pre-check `cooldown_until`,
matching the source's evaluation order). -/
structure StatusInfo where
  email : String
  status : AccountStatus
  isAvailableField : Bool
  cooldownRemaining : Int
  requestCount : Nat
  errorCount : Nat
deriving DecidableEq, Repr

/-- Embeds `Account.get_status_info`: the returned dictionary plus the
account as mutated by the embedded `is_available()` call. -/
def Account.getStatusInfo (a : Account) (now : Int) : StatusInfo × Account :=
  let cooldownRemaining := max 0 (a.cooldownUntil - now)
  let preStatus := a.status
  let r := a.isAvailable now
  (⟨a.email, preStatus, r.1, cooldownRemaining, a.requestCount, a.errorCount⟩,
    r.2)

/-- A concrete freshly-loaded account used by closed statements:
`status = active`, counters zero, no cooldown, created at instant 0 with
no explicit expiry. -/
def sampleAccount : Account :=
  ⟨"user@example.com", "team-1", 0, none, .active, 0, 0, 0, 0⟩

/-- C2: from an Active account with error counter 0 and no cooldown,
`report_error` with 401 yields CooldownAuth and with 403 CooldownForbidden,
both with cooldown-until `now + 7200`; 429 yields CooldownRateLimit with
cooldown-until `now + 14400`; any other code increments the error counter
without setting a cooldown; and five consecutive calls with code 500 leave
the account in the terminal Error state with cooldown-until still 0. -/
theorem C2_report_error_transitions (a : Account) (now : Int)
    (h1 : a.status = .active) (h2 : a.errorCount = 0)
    (h3 : a.cooldownUntil = 0) :
    (handleError a now 401).status = .cooldown401 ∧
    (handleError a now 401).cooldownUntil = now + 7200 ∧
    (handleError a now 403).status = .cooldown403 ∧
    (handleError a now 403).cooldownUntil = now + 7200 ∧
    (handleError a now 429).status = .cooldown429 ∧
    (handleError a now 429).cooldownUntil = now + 14400 ∧
    (∀ c : Int, c ≠ 401 → c ≠ 403 → c ≠ 429 →
      (handleError a now c).errorCount = a.errorCount + 1 ∧
      (handleError a now c).cooldownUntil = 0) ∧
    (handleError (handleError (handleError (handleError
      (handleError a now 500) now 500) now 500) now 500) now 500).status
        = .error ∧
    (handleError (handleError (handleError (handleError
      (handleError a now 500) now 500) now 500) now 500) now 500).cooldownUntil
        = 0 := by
  obtain ⟨e, t, ca, ex, st, cd, rc, ec, lu⟩ := a
  simp only [Account.mk.injEq] at h1 h2 h3
  subst h1 h2 h3
  refine ⟨rfl, rfl, rfl, rfl, rfl, rfl, ?_, rfl, rfl⟩
  intro c hc1 hc2 hc3
  simp [handleError, hc1, hc2, hc3]

/-- Witness for C2 at a concrete account and instant. -/
theorem C2_report_error_transitions_witness :
    (handleError sampleAccount 1000 401).status = .cooldown401 ∧
    (handleError sampleAccount 1000 401).cooldownUntil = 1000 + 7200 ∧
    (handleError sampleAccount 1000 403).status = .cooldown403 ∧
    (handleError sampleAccount 1000 403).cooldownUntil = 1000 + 7200 ∧
    (handleError sampleAccount 1000 429).status = .cooldown429 ∧
    (handleError sampleAccount 1000 429).cooldownUntil = 1000 + 14400 ∧
    (∀ c : Int, c ≠ 401 → c ≠ 403 → c ≠ 429 →
      (handleError sampleAccount 1000 c).errorCount =
        sampleAccount.errorCount + 1 ∧
      (handleError sampleAccount 1000 c).cooldownUntil = 0) ∧
    (handleError (handleError (handleError (handleError
      (handleError sampleAccount 1000 500) 1000 500) 1000 500) 1000 500)
        1000 500).status = .error ∧
    (handleError (handleError (handleError (handleError
      (handleError sampleAccount 1000 500) 1000 500) 1000 500) 1000 500)
        1000 500).cooldownUntil = 0 :=
  C2_report_error_transitions sampleAccount 1000 rfl rfl rfl

/-- C5 fails as stated: an account whose counter reaches 5 through a
cooldown-triggering code does not transition to Error — `handle_error`
only runs the threshold check in the generic-code branch.  Concretely,
a 401 on an account with error counter 4 brings the counter to 5 but
leaves the status at CooldownAuth. -/
theorem C5_counterexample :
    (handleError { sampleAccount with errorCount := 4 } 1000 401).errorCount
        = 5 ∧
    (handleError { sampleAccount with errorCount := 4 } 1000 401).status
        ≠ .error ∧
    (handleError { sampleAccount with errorCount := 4 } 1000 401).status
        = .cooldown401 := by
  decide

/-- C5 amended: every `report_error` call increments the one shared error
counter (cooldown codes through `set_cooldown`, generic codes directly),
but the Error-state check runs only in the generic branch: a non-401/403/429
code that brings the counter to 5 or more sets the terminal Error state,
while a cooldown-triggering fifth increment leaves the cooldown status. -/
theorem C5_shared_error_counter (a : Account) (now : Int) (c : Int) :
    (handleError a now c).errorCount = a.errorCount + 1 ∧
    (c ≠ 401 → c ≠ 403 → c ≠ 429 → a.errorCount + 1 ≥ 5 →
      (handleError a now c).status = .error) ∧
    (c = 401 ∨ c = 403 ∨ c = 429 → (handleError a now c).status ≠ .error) := by
  refine ⟨?_, ?_, ?_⟩
  · by_cases h1 : c = 401
    · simp [handleError, h1, Account.setCooldown]
    · by_cases h2 : c = 403
      · simp [handleError, h1, h2, Account.setCooldown]
      · by_cases h3 : c = 429
        · simp [handleError, h1, h2, h3, Account.setCooldown]
        · simp [handleError, h1, h2, h3]
          split <;> rfl
  · intro h1 h2 h3 h5
    simp [handleError, h1, h2, h3, h5]
  · rintro (h | h | h) <;> simp [handleError, h, Account.setCooldown]

/-- Witness for C5 (amended) at a concrete account, instant and codes. -/
theorem C5_shared_error_counter_witness :
    (handleError { sampleAccount with errorCount := 4 } 1000 500).errorCount
        = { sampleAccount with errorCount := 4 }.errorCount + 1 ∧
    (handleError { sampleAccount with errorCount := 4 } 1000 500).status
        = .error ∧
    (handleError { sampleAccount with errorCount := 4 } 1000 401).status
        ≠ .error :=
  ⟨(C5_shared_error_counter { sampleAccount with errorCount := 4 } 1000 500).1,
   (C5_shared_error_counter { sampleAccount with errorCount := 4 } 1000 500).2.1
     (by decide) (by decide) (by decide) (by decide),
   (C5_shared_error_counter { sampleAccount with errorCount := 4 } 1000 401).2.2
     (Or.inl rfl)⟩

/-- A concrete account sitting in an elapsed 429 cooldown: the deadline
(instant 50) is already past at observation instant 100. -/
def cooldownElapsedAccount : Account :=
  ⟨"cooled@example.com", "team-2", 0, none, .cooldown429, 50, 2, 1, 10⟩

/-- A concrete account whose explicit expiry (instant 50) is already past
at observation instant 100 while its stored status is still Active. -/
def expiredStaleAccount : Account :=
  ⟨"old@example.com", "team-3", 0, some 50, .active, 0, 7, 0, 10⟩

/-- C10: the monitoring views are not read-only.  `get_pool_status` and
`get_status_info` call `is_available()`, which clears an elapsed cooldown
(status back to Active, cooldown-until to 0) and stamps an expired
account's status to Expired — so merely reading the snapshot changes the
stored statuses of accounts in the pool. -/
theorem C10_monitoring_views_mutate :
    (AccountPool.getPoolStatus ⟨[cooldownElapsedAccount], 0⟩ 100).2.accounts
        = [{ cooldownElapsedAccount with status := .active, cooldownUntil := 0 }] ∧
    cooldownElapsedAccount.status = .cooldown429 ∧
    cooldownElapsedAccount.cooldownUntil = 50 ∧
    (AccountPool.getPoolStatus ⟨[expiredStaleAccount], 0⟩ 100).2.accounts
        = [{ expiredStaleAccount with status := .expired }] ∧
    expiredStaleAccount.status = .active ∧
    (cooldownElapsedAccount.getStatusInfo 100).2.status = .active ∧
    (cooldownElapsedAccount.getStatusInfo 100).2.cooldownUntil = 0 ∧
    (expiredStaleAccount.getStatusInfo 100).2.status = .expired := by
  decide

/-- A complete configuration entry (every required field present). -/
def completeEntry : AccountData :=
  ⟨some "a@example.com", some "team-1", some "ses", some "oses", some "42",
    some "UA", some "2025-01-01T00:00:00Z", none⟩

/-- The same entry with the required `email` field absent. -/
def entryMissingEmail : AccountData :=
  { completeEntry with email := none }

/-- C9 fails as stated: `load_accounts` re-raises on the first invalid
entry, so a single entry missing a required field aborts the whole load —
the remaining (valid) entries are not loaded.  Concretely, a two-entry
configuration whose first entry lacks `email` loads no accounts at all,
even though the second entry is complete. -/
theorem C9_counterexample :
    loadAccounts [entryMissingEmail, completeEntry] =
      .error "Invalid account #1: Missing required fields: email" ∧
    missingFields completeEntry = [] := by
  constructor
  · rfl
  · rfl

/-- C9 amended: an account entry missing required fields fails the whole
startup load with a descriptive `ValueError` naming the 1-based entry
index and the missing fields; entries after the failing one (valid or not)
are not loaded. -/
theorem C9_missing_field_aborts_load (pre post : List AccountData)
    (d : AccountData) (hpre : ∀ x ∈ pre, missingFields x = [])
    (hd : missingFields d ≠ []) :
    loadAccounts (pre ++ d :: post) =
      .error ("Invalid account #" ++ toString (pre.length + 1) ++ ": " ++
        ("Missing required fields: " ++
          String.intercalate ", " (missingFields d))) := by
  have main : ∀ (pre : List AccountData) (idx : Nat),
      (∀ x ∈ pre, missingFields x = []) →
      loadAccountsLoop idx (pre ++ d :: post) =
        .error ("Invalid account #" ++ toString (idx + pre.length + 1) ++
          ": " ++ ("Missing required fields: " ++
            String.intercalate ", " (missingFields d))) := by
    intro pre
    induction pre with
    | nil =>
      intro idx _
      simp only [List.nil_append, loadAccountsLoop, createAccount, hd,
        ne_eq, not_false_iff, if_pos, List.length_nil, Nat.add_zero]
    | cons x xs ih =>
      intro idx hall
      have hx : missingFields x = [] := hall x (by simp)
      have hrec := ih (idx + 1) (fun y hy => hall y (by simp [hy]))
      simp only [List.cons_append, loadAccountsLoop, createAccount, hx]
      rw [if_neg (by simp)]
      simp only [List.append_eq] at hrec ⊢
      rw [hrec]
      simp only [List.length_cons]
      have harith : idx + 1 + xs.length + 1 = idx + (xs.length + 1) + 1 := by
        omega
      rw [harith]
  have h0 := main pre 0 hpre
  simp only [Nat.zero_add] at h0
  rw [loadAccounts, if_neg (by simp)]
  exact h0

/-- Witness for C9 (amended) at a concrete two-entry configuration. -/
theorem C9_missing_field_aborts_load_witness :
    loadAccounts [completeEntry, entryMissingEmail] =
      .error ("Invalid account #" ++ toString (1 + 1) ++ ": " ++
        ("Missing required fields: " ++
          String.intercalate ", " (missingFields entryMissingEmail))) :=
  C9_missing_field_aborts_load [completeEntry] [] entryMissingEmail
    (by decide) (by decide)

/-- A concrete stand-in for the external HMAC-SHA256 primitive, used only
to instantiate closed statements. -/
def hmacStub (key message : List Nat) : List Nat := key ++ message

/-- A concrete minter state holding a previously fetched signing secret
and a token that is already due for refresh at instant 1000. -/
def staleSecretState : TokenState :=
  ⟨some "cached.jwt", 900, some "T0xEU0VDUkVU", some "key-1"⟩

/-- C8 fails as stated: when the secret fetch returns a non-200 status,
`_refresh_token` raises before assigning `xsrf_token`, and its `except`
clause resets only `jwt_token` and `token_expires_at` — the previously
cached signing secret survives the failed refresh instead of being reset
to empty. -/
theorem C8_counterexample :
    (refreshToken hmacStub "team-1" (.response 500 none none) 1000
        staleSecretState).2.xsrfToken = some "T0xEU0VDUkVU" ∧
    optStrFalsy (some "T0xEU0VDUkVU") = false ∧
    (refreshToken hmacStub "team-1" (.response 500 none none) 1000
        staleSecretState).1 = false ∧
    (refreshToken hmacStub "team-1" (.response 500 none none) 1000
        staleSecretState).2.jwtToken = none := by
  refine ⟨rfl, rfl, rfl, rfl⟩

/-- C8 amended: on any failed secret fetch (transport error, non-200
status, or a response whose secret field is missing or empty) the minter
resets its cached token and expiry to empty, and a `get_token` call that
performed the refresh fails with the token-refresh-failure error rather
than returning any token.  The cached signing secret, however, is only
overwritten (with the fetched value) on a 200 response lacking the field;
a non-200 or transport failure leaves the previously cached secret in
place. -/
theorem C8_failed_refresh_rolls_back_token
    (hmacSha256 : List Nat → List Nat → List Nat) (teamId : String)
    (fetch : FetchResult) (now : Int) (st : TokenState)
    (hfail : ∀ s x k, fetch = .response s x k → s ≠ 200 ∨ optStrFalsy x = true) :
    (refreshToken hmacSha256 teamId fetch now st).1 = false ∧
    (refreshToken hmacSha256 teamId fetch now st).2.jwtToken = none ∧
    (refreshToken hmacSha256 teamId fetch now st).2.tokenExpiresAt = 0 ∧
    (shouldRefresh st now = true →
      getToken hmacSha256 teamId fetch now st =
        (.error "Token refresh failed",
          (refreshToken hmacSha256 teamId fetch now st).2, 1)) ∧
    (∀ s x k, fetch = .response s x k → s ≠ 200 →
      (refreshToken hmacSha256 teamId fetch now st).2.xsrfToken = st.xsrfToken) ∧
    (fetch = .netError →
      (refreshToken hmacSha256 teamId fetch now st).2.xsrfToken = st.xsrfToken) ∧
    (∀ x k, fetch = .response 200 x k → optStrFalsy x = true →
      (refreshToken hmacSha256 teamId fetch now st).2.xsrfToken = x) := by
  have href : (refreshToken hmacSha256 teamId fetch now st).1 = false ∧
      (refreshToken hmacSha256 teamId fetch now st).2.jwtToken = none ∧
      (refreshToken hmacSha256 teamId fetch now st).2.tokenExpiresAt = 0 := by
    match fetch with
    | .netError => exact ⟨rfl, rfl, rfl⟩
    | .response s x k =>
      rcases hfail s x k rfl with h | h
      · simp [refreshToken, h]
      · by_cases h200 : s = 200
        · subst h200
          simp [refreshToken, h]
        · simp [refreshToken, h200]
  refine ⟨href.1, href.2.1, href.2.2, ?_, ?_, ?_, ?_⟩
  · intro hsr
    have hre : refreshToken hmacSha256 teamId fetch now st =
        (false, (refreshToken hmacSha256 teamId fetch now st).2) := by
      rw [← href.1]
    rw [getToken, hsr, hre]
    simp
  · intro s x k hf h200
    subst hf
    simp [refreshToken, h200]
  · intro hf
    subst hf
    rfl
  · intro x k hf hx
    subst hf
    simp [refreshToken, hx]

/-- Witness for C8 (amended): a transport failure at a concrete state. -/
theorem C8_failed_refresh_rolls_back_token_witness :
    (refreshToken hmacStub "team-1" .netError 1000 staleSecretState).1 = false ∧
    (refreshToken hmacStub "team-1" .netError 1000
        staleSecretState).2.jwtToken = none ∧
    (refreshToken hmacStub "team-1" .netError 1000
        staleSecretState).2.tokenExpiresAt = 0 ∧
    getToken hmacStub "team-1" .netError 1000 staleSecretState =
      (.error "Token refresh failed",
        (refreshToken hmacStub "team-1" .netError 1000 staleSecretState).2, 1) :=
  have h := C8_failed_refresh_rolls_back_token hmacStub "team-1" .netError
    1000 staleSecretState (fun s x k hf => by cases hf)
  ⟨h.1, h.2.1, h.2.2.1, h.2.2.2.1 (by decide)⟩

/-- The attempt script of the C3 scenario: attempt 1 observes HTTP 401,
attempt 2 (were it reached) would succeed. -/
def c3Attempts : Nat → AttemptOutcome
  | 0 => .httpStatusError 401 0
  | _ => .success 7

/-- C3 fails as stated: the session-invalidation branch of
`send_message_with_retry` sits after the unconditional re-raise for 4xx
statuses other than 429, so a 401 is re-raised on the attempt that
observes it with the cached session left in place — attempt 2 never
starts, and the 401-then-200 scenario fails instead of succeeding.
Evaluating the model at that scenario: exactly one attempt was begun
(with the session still cached at its start), the call raises the 401
error, and the session cache still holds the old session name. -/
theorem C3_counterexample :
    sendMessageWithRetry c3Attempts (fun i => "fresh-" ++ toString i) 3
        (some "sess-0") =
      ⟨.error (some (.httpStatus 401 0)), some "sess-0", [some "sess-0"]⟩ := by
  rfl

/-- Whether the loop of `send_message_with_retry` records the outcome as
`last_error` and continues (as opposed to returning or re-raising
immediately): every `RequestError` is retried, an `HTTPStatusError` is
retried unless its status is a 4xx other than 429. -/
def retriesOn : AttemptOutcome → Bool
  | .success _ => false
  | .httpStatusError s _ => decide (¬(400 ≤ s ∧ s < 500 ∧ s ≠ 429))
  | .requestError _ => true

/-- The error object an outcome would contribute as `last_error`. -/
def toRaised : AttemptOutcome → Option RaisedError
  | .success _ => none
  | .httpStatusError s id => some (.httpStatus s id)
  | .requestError id => some (.request id)

/-- Unfolding equation of `retryLoop` for an exhausted budget. -/
theorem retryLoop_zero (attempts : Nat → AttemptOutcome)
    (fresh : Nat → String) (i : Nat) (le : Option RaisedError)
    (s : Option String) (hist : List (Option String)) :
    retryLoop attempts fresh i 0 le s hist = ⟨.error le, s, hist.reverse⟩ :=
  rfl

/-- Unfolding equation of `retryLoop` when the attempt succeeds. -/
theorem retryLoop_success (attempts : Nat → AttemptOutcome)
    (fresh : Nat → String) (i fuel : Nat) (le : Option RaisedError)
    (s : Option String) (hist : List (Option String)) (v : Nat)
    (h : attempts i = .success v) :
    retryLoop attempts fresh i (fuel + 1) le s hist =
      ⟨.ok v, if s.isNone then some (fresh i) else s, (s :: hist).reverse⟩ := by
  rw [retryLoop, h]

/-- Unfolding equation of `retryLoop` when the attempt raises an
`HTTPStatusError`. -/
theorem retryLoop_http (attempts : Nat → AttemptOutcome)
    (fresh : Nat → String) (i fuel : Nat) (le : Option RaisedError)
    (s : Option String) (hist : List (Option String)) (st : Int) (id : Nat)
    (h : attempts i = .httpStatusError st id) :
    retryLoop attempts fresh i (fuel + 1) le s hist =
      if 400 ≤ st ∧ st < 500 ∧ st ≠ 429 then
        ⟨.error (some (.httpStatus st id)),
          if s.isNone then some (fresh i) else s, (s :: hist).reverse⟩
      else
        retryLoop attempts fresh (i + 1) fuel (some (.httpStatus st id))
          (if st = 401 then none else if s.isNone then some (fresh i) else s)
          (s :: hist) := by
  rw [retryLoop, h]

/-- Unfolding equation of `retryLoop` when the attempt raises a
`RequestError`. -/
theorem retryLoop_request (attempts : Nat → AttemptOutcome)
    (fresh : Nat → String) (i fuel : Nat) (le : Option RaisedError)
    (s : Option String) (hist : List (Option String)) (id : Nat)
    (h : attempts i = .requestError id) :
    retryLoop attempts fresh i (fuel + 1) le s hist =
      retryLoop attempts fresh (i + 1) fuel (some (.request id))
        (if s.isNone then some (fresh i) else s) (s :: hist) := by
  rw [retryLoop, h]

/-- C3 amended: an attempt failing with HTTP 401 is re-raised immediately
like every other 4xx except 429 — no further attempt is begun and the
cached session name is left in place (the session-clearing branch after
the re-raise is unreachable), so the 401-then-200 retry scenario cannot
succeed.  The repository's own test suite asserts this single-attempt
behavior (`test_no_retry_on_401_error`). -/
theorem C3_401_raised_immediately (attempts : Nat → AttemptOutcome)
    (fresh : Nat → String) (maxRetries : Nat) (session : Option String)
    (id : Nat) (h : attempts 0 = .httpStatusError 401 id) :
    sendMessageWithRetry attempts fresh maxRetries session =
      ⟨.error (some (.httpStatus 401 id)),
        if session.isNone then some (fresh 0) else session, [session]⟩ := by
  rw [sendMessageWithRetry,
    retryLoop_http attempts fresh 0 maxRetries none session [] 401 id h,
    if_pos (by norm_num)]
  rfl

/-- Witness for C3 (amended) at the concrete 401-then-200 scenario. -/
theorem C3_401_raised_immediately_witness :
    sendMessageWithRetry c3Attempts (fun i => "fresh-" ++ toString i) 3
        (some "sess-0") =
      ⟨.error (some (.httpStatus 401 0)),
        if (some "sess-0" : Option String).isNone then some "fresh-0"
        else some "sess-0", [some "sess-0"]⟩ :=
  C3_401_raised_immediately c3Attempts (fun i => "fresh-" ++ toString i) 3
    (some "sess-0") 0 rfl


/-- The loop begins at most `fuel` further attempts. -/
theorem retryLoop_length_le (attempts : Nat → AttemptOutcome)
    (fresh : Nat → String) :
    ∀ (fuel i : Nat) (le : Option RaisedError) (s : Option String)
      (hist : List (Option String)),
    (retryLoop attempts fresh i fuel le s hist).sessionAtAttemptStart.length
      ≤ hist.length + fuel := by
  intro fuel
  induction fuel with
  | zero =>
    intro i le s hist
    simp [retryLoop_zero]
  | succ n ih =>
    intro i le s hist
    cases h : attempts i with
    | success v =>
      rw [retryLoop_success attempts fresh i n le s hist v h]
      simp
    | httpStatusError st id =>
      rw [retryLoop_http attempts fresh i n le s hist st id h]
      by_cases hc : 400 ≤ st ∧ st < 500 ∧ st ≠ 429
      · rw [if_pos hc]
        simp
      · rw [if_neg hc]
        have := ih (i + 1) (some (.httpStatus st id))
          (if st = 401 then none else if s.isNone then some (fresh i) else s)
          (s :: hist)
        simp only [List.length_cons] at this
        omega
    | requestError id =>
      rw [retryLoop_request attempts fresh i n le s hist id h]
      have := ih (i + 1) (some (.request id))
        (if s.isNone then some (fresh i) else s) (s :: hist)
      simp only [List.length_cons] at this
      omega

/-- When every attempt in the remaining budget fails retryably, the loop
exhausts the budget and raises the last attempt's error. -/
theorem retryLoop_all_fail (attempts : Nat → AttemptOutcome)
    (fresh : Nat → String) :
    ∀ (fuel i : Nat) (le : Option RaisedError) (s : Option String)
      (hist : List (Option String)),
    0 < fuel →
    (∀ j, i ≤ j → j < i + fuel → retriesOn (attempts j) = true) →
    (retryLoop attempts fresh i fuel le s hist).result
        = .error (toRaised (attempts (i + fuel - 1))) ∧
    (retryLoop attempts fresh i fuel le s hist).sessionAtAttemptStart.length
        = hist.length + fuel := by
  intro fuel
  induction fuel with
  | zero =>
    intro i le s hist hpos
    omega
  | succ n ih =>
    intro i le s hist _ hall
    have hri : retriesOn (attempts i) = true := hall i le_rfl (by omega)
    cases h : attempts i with
    | success v =>
      rw [h] at hri
      simp [retriesOn] at hri
    | httpStatusError st id =>
      rw [h] at hri
      have hc : ¬(400 ≤ st ∧ st < 500 ∧ st ≠ 429) := of_decide_eq_true hri
      rw [retryLoop_http attempts fresh i n le s hist st id h, if_neg hc]
      by_cases hn : n = 0
      · subst hn
        rw [retryLoop_zero]
        refine ⟨?_, by simp⟩
        have hii : i + 1 - 1 = i := by omega
        rw [hii, h]
        rfl
      · have := ih (i + 1) (some (.httpStatus st id))
          (if st = 401 then none else if s.isNone then some (fresh i) else s)
          (s :: hist) (by omega)
          (fun j h1 h2 => hall j (by omega) (by omega))
        constructor
        · rw [this.1]
          have hii : i + 1 + n - 1 = i + (n + 1) - 1 := by omega
          rw [hii]
        · rw [this.2]
          simp
          omega
    | requestError id =>
      rw [retryLoop_request attempts fresh i n le s hist id h]
      by_cases hn : n = 0
      · subst hn
        rw [retryLoop_zero]
        refine ⟨?_, by simp⟩
        have hii : i + 1 - 1 = i := by omega
        rw [hii, h]
        rfl
      · have := ih (i + 1) (some (.request id))
          (if s.isNone then some (fresh i) else s)
          (s :: hist) (by omega)
          (fun j h1 h2 => hall j (by omega) (by omega))
        constructor
        · rw [this.1]
          have hii : i + 1 + n - 1 = i + (n + 1) - 1 := by omega
          rw [hii]
        · rw [this.2]
          simp
          omega

/-- When the first `k` remaining attempts fail retryably and attempt `k`
observes a client-class status (4xx, not 429), the loop re-raises that
error on attempt `k` and begins no further attempt. -/
theorem retryLoop_client_error (attempts : Nat → AttemptOutcome)
    (fresh : Nat → String) (s400 : Int) (id : Nat) :
    ∀ (k fuel i : Nat) (le : Option RaisedError) (s : Option String)
      (hist : List (Option String)),
    k < fuel →
    (∀ j, j < k → retriesOn (attempts (i + j)) = true) →
    attempts (i + k) = .httpStatusError s400 id →
    400 ≤ s400 → s400 < 500 → s400 ≠ 429 →
    (retryLoop attempts fresh i fuel le s hist).result
        = .error (some (.httpStatus s400 id)) ∧
    (retryLoop attempts fresh i fuel le s hist).sessionAtAttemptStart.length
        = hist.length + k + 1 := by
  intro k
  induction k with
  | zero =>
    intro fuel i le s hist hk hpre hat h1 h2 h3
    obtain ⟨m, rfl⟩ : ∃ m, fuel = m + 1 := ⟨fuel - 1, by omega⟩
    rw [Nat.add_zero] at hat
    rw [retryLoop_http attempts fresh i m le s hist s400 id hat,
      if_pos ⟨h1, h2, h3⟩]
    simp
  | succ k' ih =>
    intro fuel i le s hist hk hpre hat h1 h2 h3
    obtain ⟨m, rfl⟩ : ∃ m, fuel = m + 1 := ⟨fuel - 1, by omega⟩
    have hr0 : retriesOn (attempts (i + 0)) = true := hpre 0 (by omega)
    rw [Nat.add_zero] at hr0
    cases h : attempts i with
    | success v =>
      rw [h] at hr0
      simp [retriesOn] at hr0
    | httpStatusError st2 id2 =>
      rw [h] at hr0
      have hc : ¬(400 ≤ st2 ∧ st2 < 500 ∧ st2 ≠ 429) := of_decide_eq_true hr0
      rw [retryLoop_http attempts fresh i m le s hist st2 id2 h, if_neg hc]
      have := ih m (i + 1) (some (.httpStatus st2 id2))
        (if st2 = 401 then none else if s.isNone then some (fresh i) else s)
        (s :: hist) (by omega)
        (fun j hj => by
          have := hpre (j + 1) (by omega)
          rw [show i + (j + 1) = i + 1 + j by omega] at this
          exact this)
        (by rw [show i + 1 + k' = i + (k' + 1) by omega]; exact hat)
        h1 h2 h3
      refine ⟨this.1, ?_⟩
      rw [this.2]
      simp
      omega
    | requestError id2 =>
      rw [retryLoop_request attempts fresh i m le s hist id2 h]
      have := ih m (i + 1) (some (.request id2))
        (if s.isNone then some (fresh i) else s)
        (s :: hist) (by omega)
        (fun j hj => by
          have := hpre (j + 1) (by omega)
          rw [show i + (j + 1) = i + 1 + j by omega] at this
          exact this)
        (by rw [show i + 1 + k' = i + (k' + 1) by omega]; exact hat)
        h1 h2 h3
      refine ⟨this.1, ?_⟩
      rw [this.2]
      simp
      omega

/-- C4: `send_message_with_retry` begins at most `1 + max_retries`
attempts; a 4xx status other than 429 is re-raised on the attempt that
observes it (after retryable failures on every earlier attempt), with no
further attempt begun; and when all `1 + max_retries` attempts fail
retryably (429, 5xx, or transport errors), the loop runs all of them and
re-raises exactly the last attempt's error object. -/
theorem C4_retry_policy (attempts : Nat → AttemptOutcome)
    (fresh : Nat → String) (maxRetries : Nat) (session : Option String) :
    (sendMessageWithRetry attempts fresh maxRetries
        session).sessionAtAttemptStart.length ≤ maxRetries + 1 ∧
    ((∀ i, i ≤ maxRetries → retriesOn (attempts i) = true) →
      (sendMessageWithRetry attempts fresh maxRetries session).result
          = .error (toRaised (attempts maxRetries)) ∧
      (sendMessageWithRetry attempts fresh maxRetries
          session).sessionAtAttemptStart.length = maxRetries + 1) ∧
    (∀ k s400 id, k ≤ maxRetries →
      (∀ j, j < k → retriesOn (attempts j) = true) →
      attempts k = .httpStatusError s400 id →
      400 ≤ s400 → s400 < 500 → s400 ≠ 429 →
      (sendMessageWithRetry attempts fresh maxRetries session).result
          = .error (some (.httpStatus s400 id)) ∧
      (sendMessageWithRetry attempts fresh maxRetries
          session).sessionAtAttemptStart.length = k + 1) := by
  refine ⟨?_, ?_, ?_⟩
  · have := retryLoop_length_le attempts fresh (maxRetries + 1) 0 none session []
    simpa using this
  · intro hall
    have := retryLoop_all_fail attempts fresh (maxRetries + 1) 0 none session []
      (by omega) (fun j h1 h2 => hall j (by omega))
    simpa using this
  · intro k s400 id hk hpre hat h1 h2 h3
    have := retryLoop_client_error attempts fresh s400 id k (maxRetries + 1) 0
      none session [] (by omega)
      (fun j hj => by simpa using hpre j hj) (by simpa using hat) h1 h2 h3
    simpa using this

/-- The attempt script of the C4 scenario: every attempt observes
HTTP 500 (each attempt raising its own error object). -/
def c4Attempts (i : Nat) : AttemptOutcome := .httpStatusError 500 i

/-- Witness for C4: with `max_retries = 2` and a 500 on every attempt, the
call makes exactly 3 attempts and re-raises the third attempt's error. -/
theorem C4_retry_policy_witness :
    (sendMessageWithRetry c4Attempts (fun _ => "s") 2 none).result
        = .error (toRaised (c4Attempts 2)) ∧
    (sendMessageWithRetry c4Attempts (fun _ => "s")
        2 none).sessionAtAttemptStart.length = 2 + 1 :=
  (C4_retry_policy c4Attempts (fun _ => "s") 2 none).2.1
    (fun i _ => by simp [c4Attempts, retriesOn])

/-- Lookup at the junction of an append. -/
theorem get_q_append (xs : List Account) (y : Account) (ys : List Account) :
    (xs ++ y :: ys).get? xs.length = some y := by
  induction xs with
  | nil => rfl
  | cons x xs ih => simpa using ih

/-- Update at the junction of an append. -/
theorem set_append (xs : List Account) (y z : Account) (ys : List Account) :
    (xs ++ y :: ys).set xs.length z = xs ++ z :: ys := by
  induction xs with
  | nil => rfl
  | cons x xs ih => simp [ih]

/-- Unfolding equation of the scan loop when the cursor lookup succeeds. -/
theorem getAvailLoop_step (now : Int) (fuel : Nat) (accounts : List Account)
    (idx : Nat) (a : Account) (hget : accounts.get? idx = some a) :
    getAvailLoop now (fuel + 1) accounts idx =
      if (a.isAvailable now).1 then
        some ((a.isAvailable now).2.markUsed now,
          (accounts.set idx (a.isAvailable now).2).set idx
            ((a.isAvailable now).2.markUsed now),
          (idx + 1) % accounts.length)
      else
        getAvailLoop now fuel (accounts.set idx (a.isAvailable now).2)
          ((idx + 1) % accounts.length) := by
  rw [getAvailLoop, hget]

/-- One acquisition from a pool whose cursor points at a stably available
account `y`: `y` is returned marked used, and the cursor advances by one
modulo the pool length. -/
theorem acquire_step (now : Int) (xs ys : List Account) (y : Account)
    (hy : y.isAvailable now = (true, y)) :
    AccountPool.getAvailableAccount ⟨xs ++ y :: ys, xs.length⟩ now =
      .ok (y.markUsed now,
        ⟨xs ++ y.markUsed now :: ys,
          (xs.length + 1) % (xs.length + ys.length + 1)⟩) := by
  have hlen : (xs ++ y :: ys).length = xs.length + ys.length + 1 := by
    simp
    omega
  rw [AccountPool.getAvailableAccount, if_neg (by simp)]
  rw [hlen, getAvailLoop_step now _ _ _ y (get_q_append xs y ys), hy]
  simp only [set_append, hlen]
  simp

/-- Unfolding equation of `acquireN` when the acquisition succeeds. -/
theorem acquireN_ok (now : Int) (n : Nat) (p : AccountPool) (a : Account)
    (p' : AccountPool) (h : p.getAvailableAccount now = .ok (a, p')) :
    acquireN now (n + 1) p =
      (.ok a :: (acquireN now n p').1, (acquireN now n p').2) := by
  rw [acquireN, h]

/-- Round-robin induction: starting with `xs` already-served accounts and
the cursor at `xs.length`, `n ≤ ys.length` acquisitions from a tail `ys`
of stably available accounts return exactly the first `n` of `ys` in
order, each marked used, advancing the cursor one step per served
account. -/
theorem acquireN_all_available (now : Int) :
    ∀ (n : Nat) (ys xs : List Account),
    n ≤ ys.length →
    (∀ a ∈ ys, a.isAvailable now = (true, a)) →
    acquireN now n ⟨xs ++ ys, xs.length⟩ =
      ((ys.take n).map (fun a => Except.ok (a.markUsed now)),
        ⟨xs ++ ((ys.take n).map (fun a => a.markUsed now) ++ ys.drop n),
          if n = 0 then xs.length
          else (xs.length + n) % (xs.length + ys.length)⟩) := by
  intro n
  induction n with
  | zero =>
    intro ys xs h1 h2
    simp [acquireN]
  | succ n ih =>
    intro ys xs h1 h2
    match ys with
    | [] => simp at h1
    | y :: ys' =>
      have hy : y.isAvailable now = (true, y) := h2 y (by simp)
      rw [acquireN_ok now n _ _ _ (acquire_step now xs ys' y hy)]
      cases n with
      | zero =>
        have harith : xs.length + ys'.length + 1 =
            xs.length + (ys'.length + 1) := by
          omega
        simp [acquireN, harith]
      | succ m =>
        have hlt : xs.length + 1 < xs.length + ys'.length + 1 := by
          simp only [List.length_cons] at h1
          omega
        rw [Nat.mod_eq_of_lt hlt]
        have hsplit : xs ++ y.markUsed now :: ys' =
            (xs ++ [y.markUsed now]) ++ ys' := by
          simp
        have hcur : xs.length + 1 = (xs ++ [y.markUsed now]).length := by
          simp
        rw [hsplit, hcur,
          ih ys' (xs ++ [y.markUsed now])
            (by simp only [List.length_cons] at h1; omega)
            (fun a ha => h2 a (by simp [ha]))]
        have e1 : (xs ++ [y.markUsed now]).length + (m + 1) =
            xs.length + (m + 1 + 1) := by
          simp
          omega
        have e2 : (xs ++ [y.markUsed now]).length + ys'.length =
            xs.length + (ys'.length + 1) := by
          simp
          omega
        simp [e1, e2]
        congr 1 <;> omega

/-- C1: from a freshly constructed pool (cursor 0) whose accounts are all
stably available, `accounts.length` consecutive `acquire()` calls return
each account exactly once, in insertion order, before any repeat; after
`k` calls the cursor has advanced to `k` modulo the pool length (one step
per scanned candidate, each call scanning exactly one); and every returned
account is `mark_used`: usage counter incremented, last-used instant
stamped. -/
theorem C1_round_robin (accounts : List Account) (now : Int)
    (hav : ∀ a ∈ accounts, a.isAvailable now = (true, a)) :
    (acquireN now accounts.length ⟨accounts, 0⟩).1 =
      accounts.map (fun a => Except.ok (a.markUsed now)) ∧
    (∀ k, k ≤ accounts.length →
      (acquireN now k ⟨accounts, 0⟩).2.currentIndex = k % accounts.length) ∧
    (acquireN now accounts.length ⟨accounts, 0⟩).2.accounts =
      accounts.map (fun a => a.markUsed now) ∧
    (∀ a : Account, (a.markUsed now).requestCount = a.requestCount + 1 ∧
      (a.markUsed now).lastUsedAt = now) := by
  refine ⟨?_, ?_, ?_, fun a => ⟨rfl, rfl⟩⟩
  · have h := acquireN_all_available now accounts.length accounts [] le_rfl hav
    simp only [List.nil_append, List.length_nil, Nat.zero_add] at h
    rw [h]
    simp
  · intro k hk
    have h := acquireN_all_available now k accounts [] hk hav
    simp only [List.nil_append, List.length_nil, Nat.zero_add] at h
    rw [h]
    by_cases hk0 : k = 0
    · simp [hk0]
    · simp [hk0]
  · have h := acquireN_all_available now accounts.length accounts [] le_rfl hav
    simp only [List.nil_append, List.length_nil, Nat.zero_add] at h
    rw [h]
    simp

/-- A second concrete available account for the round-robin witness. -/
def secondAccount : Account :=
  ⟨"user2@example.com", "team-1", 0, none, .active, 0, 0, 0, 0⟩

/-- Witness for C1 at a concrete two-account pool and instant. -/
theorem C1_round_robin_witness :
    (acquireN 100 ([sampleAccount, secondAccount]).length
        ⟨[sampleAccount, secondAccount], 0⟩).1 =
      [sampleAccount, secondAccount].map
        (fun a => Except.ok (a.markUsed 100)) :=
  (C1_round_robin [sampleAccount, secondAccount] 100 (by decide)).1

/-- An account that fails the availability check is a fixed point of the
check: re-checking its residue yields `false` again and mutates nothing
further. -/
theorem isAvailable_false_fixed (a : Account) (now : Int)
    (h : (a.isAvailable now).1 = false) :
    (a.isAvailable now).2.isAvailable now = (false, (a.isAvailable now).2) := by
  obtain ⟨e, t, ca, ex, st, cd, rc, ec, lu⟩ := a
  by_cases hexp : (⟨e, t, ca, ex, st, cd, rc, ec, lu⟩ : Account).isExpired now = true
  · have hexp2 : (⟨e, t, ca, ex, .expired, cd, rc, ec, lu⟩ : Account).isExpired now = true :=
      hexp
    simp [Account.isAvailable, hexp, hexp2]
  · have hexpf : (⟨e, t, ca, ex, st, cd, rc, ec, lu⟩ : Account).isExpired now = false :=
      Bool.not_eq_true _ ▸ eq_false_of_ne_true hexp
    by_cases hcd : cd = 0
    · subst hcd
      by_cases hst : st = AccountStatus.expired ∨ st = AccountStatus.error
      · simp [Account.isAvailable, Account.isInCooldown, hexpf, hst]
      · simp [Account.isAvailable, Account.isInCooldown, hexpf, hst] at h
    · by_cases hge : now ≥ cd
      · by_cases hcool : st = AccountStatus.cooldown401 ∨
            st = AccountStatus.cooldown403 ∨ st = AccountStatus.cooldown429
        · simp [Account.isAvailable, Account.isInCooldown, hexpf, hcd, hge,
            hcool] at h
        · by_cases hst : st = AccountStatus.expired ∨ st = AccountStatus.error
          · have hexpf2 : (⟨e, t, ca, ex, st, 0, rc, ec, lu⟩ : Account).isExpired now = false :=
              hexpf
            simp [Account.isAvailable, Account.isInCooldown, hexpf, hexpf2,
              hcd, hge, hcool, hst]
          · simp [Account.isAvailable, Account.isInCooldown, hexpf, hcd, hge,
              hcool, hst] at h
      · simp [Account.isAvailable, Account.isInCooldown, hexpf, hcd, hge]

/-- During a scan, every account in the working list is either an original
pool member or the once-checked residue of an unavailable original. -/
def scanResidue (now : Int) (orig : List Account) (a : Account) : Prop :=
  a ∈ orig ∨
    ∃ y ∈ orig, (y.isAvailable now).1 = false ∧ a = (y.isAvailable now).2

/-- Soundness of the scan loop: a returned account is the marked-used
availability residue of an original pool member whose availability check
succeeded. -/
theorem getAvailLoop_sound (now : Int) (orig : List Account) :
    ∀ (fuel : Nat) (accounts : List Account) (idx : Nat) (b : Account)
      (accs : List Account) (cur : Nat),
    (∀ a ∈ accounts, scanResidue now orig a) →
    getAvailLoop now fuel accounts idx = some (b, accs, cur) →
    ∃ x ∈ orig, (x.isAvailable now).1 = true ∧
      b = (x.isAvailable now).2.markUsed now := by
  intro fuel
  induction fuel with
  | zero =>
    intro accounts idx b accs cur hres hloop
    simp [getAvailLoop] at hloop
  | succ n ih =>
    intro accounts idx b accs cur hres hloop
    cases hget : accounts.get? idx with
    | none =>
      rw [getAvailLoop, hget] at hloop
      cases hloop
    | some account =>
      have hacc : scanResidue now orig account :=
        hres account (List.get?_mem hget)
      rw [getAvailLoop_step now n accounts idx account hget] at hloop
      by_cases hav : (account.isAvailable now).1 = true
      · rw [if_pos hav] at hloop
        have hb : b = (account.isAvailable now).2.markUsed now := by
          simpa using congrArg (fun z => Option.map (fun w => w.1) z) hloop.symm
        rcases hacc with hmem | ⟨y, hy, hyf, heq⟩
        · exact ⟨account, hmem, hav, hb⟩
        · exfalso
          have hfix := isAvailable_false_fixed y now hyf
          rw [heq, hfix] at hav
          simp at hav
      · rw [if_neg hav] at hloop
        refine ih _ _ b accs cur ?_ hloop
        intro a ha
        rcases List.mem_or_eq_of_mem_set ha with hmem | rfl
        · exact hres a hmem
        · rcases hacc with hmem | ⟨y, hy, hyf, heq⟩
          · exact Or.inr ⟨account, hmem, by simpa using hav, rfl⟩
          · have hfix := isAvailable_false_fixed y now hyf
            right
            refine ⟨y, hy, hyf, ?_⟩
            rw [heq, hfix]

/-- Soundness of `get_available_account`: a successfully acquired account
is the marked-used residue of a pool member that passed the availability
check — an unavailable account is never returned. -/
theorem getAvailableAccount_sound (p : AccountPool) (now : Int) (b : Account)
    (p' : AccountPool) (h : p.getAvailableAccount now = .ok (b, p')) :
    ∃ x ∈ p.accounts, (x.isAvailable now).1 = true ∧
      b = (x.isAvailable now).2.markUsed now := by
  rw [AccountPool.getAvailableAccount] at h
  by_cases hemp : p.accounts.isEmpty
  · rw [if_pos hemp] at h
    cases h
  · rw [if_neg hemp] at h
    cases hloop : getAvailLoop now p.accounts.length p.accounts p.currentIndex with
    | none =>
      rw [hloop] at h
      cases h
    | some triple =>
      obtain ⟨b2, accs, cur⟩ := triple
      rw [hloop] at h
      have hb : b2 = b := by
        have := congrArg (fun z =>
          match z with
          | Except.ok (w, _) => some w
          | Except.error _ => none) h
        simpa using this
      subst hb
      exact getAvailLoop_sound now p.accounts p.accounts.length p.accounts
        p.currentIndex b2 accs cur (fun a ha => Or.inl ha) hloop

/-- C6: after `set_cooldown`, the account's deadline is `now + seconds`;
before the deadline every availability check fails — and since a
successful `acquire()` only ever returns the marked-used residue of an
account whose availability check succeeded, the cooled account is never
returned.  At or after the deadline, the first availability check on a
non-expired account returns true and, purely as a side effect, resets
cooldown-until to zero and the status to Active. -/
theorem C6_cooldown_until_deadline (a : Account) (t0 s : Int)
    (st : AccountStatus)
    (hst : st = .cooldown401 ∨ st = .cooldown403 ∨ st = .cooldown429)
    (hpos : 0 < s) (ht0 : 0 ≤ t0) :
    (a.setCooldown t0 s st).cooldownUntil = t0 + s ∧
    (∀ n : Int, n < t0 + s →
      ((a.setCooldown t0 s st).isAvailable n).1 = false) ∧
    (∀ (p : AccountPool) (n : Int) (b : Account) (p' : AccountPool),
      p.getAvailableAccount n = .ok (b, p') →
      ∃ x ∈ p.accounts, (x.isAvailable n).1 = true ∧
        b = (x.isAvailable n).2.markUsed n) ∧
    (∀ n : Int, t0 + s ≤ n → (a.setCooldown t0 s st).isExpired n = false →
      (a.setCooldown t0 s st).isAvailable n =
        (true, { a.setCooldown t0 s st with
          cooldownUntil := 0, status := .active })) := by
  obtain ⟨e, t, ca, ex, stA, cd, rc, ec, lu⟩ := a
  refine ⟨rfl, ?_, ?_, ?_⟩
  · intro n hn
    simp only [Account.setCooldown]
    by_cases hexp :
        (⟨e, t, ca, ex, st, t0 + s, rc, ec + 1, lu⟩ : Account).isExpired n = true
    · simp [Account.isAvailable, hexp]
    · have hexpf :
          (⟨e, t, ca, ex, st, t0 + s, rc, ec + 1, lu⟩ : Account).isExpired n = false :=
        eq_false_of_ne_true hexp
      have hne : ¬(t0 + s = 0) := by omega
      have hlt : ¬(n ≥ t0 + s) := by omega
      simp [Account.isAvailable, Account.isInCooldown, hexpf, hne, hlt]
  · intro p n b p' h
    exact getAvailableAccount_sound p n b p' h
  · intro n hn hexpf
    simp only [Account.setCooldown] at hexpf ⊢
    have hne : ¬(t0 + s = 0) := by omega
    rcases hst with h | h | h <;> subst h <;>
      simp [Account.isAvailable, Account.isInCooldown, hexpf, hne, hn]

/-- Witness for C6 at a concrete account: cooldown set at instant 100 for
7200 seconds; unavailable at instant 1000, available again with reset
fields at instant 7300. -/
theorem C6_cooldown_until_deadline_witness :
    (sampleAccount.setCooldown 100 7200 .cooldown401).cooldownUntil
        = 100 + 7200 ∧
    ((sampleAccount.setCooldown 100 7200 .cooldown401).isAvailable 1000).1
        = false ∧
    (sampleAccount.setCooldown 100 7200 .cooldown401).isAvailable 7300 =
      (true, { sampleAccount.setCooldown 100 7200 .cooldown401 with
        cooldownUntil := 0, status := .active }) :=
  have h := C6_cooldown_until_deadline sampleAccount 100 7200 .cooldown401
    (Or.inl rfl) (by decide) (by decide)
  ⟨h.1, h.2.1 1000 (by decide), h.2.2.2 7300 (by decide) (by decide)⟩

/-- No character of the urlsafe alphabet is a dot. -/
theorem b64Char_ne_dot (n : Nat) (h : n < 64) : b64Char n ≠ '.' := by
  have key : ∀ m, m < 64 → b64Char m ≠ '.' := by decide
  exact key n h

/-- The urlsafe encoding never emits a dot, so the three token segments
are recoverable from the dots between them. -/
theorem b64urlEncodeList_no_dot : ∀ bs : List Nat, '.' ∉ b64urlEncodeList bs := by
  intro bs
  induction bs using b64urlEncodeList.induct with
  | case1 =>
    simp [b64urlEncodeList]
  | case2 b1 =>
    simp only [b64urlEncodeList, List.mem_cons, List.not_mem_nil, or_false]
    rintro (h | h) <;> exact b64Char_ne_dot _ (by omega) h.symm
  | case3 b1 b2 =>
    simp only [b64urlEncodeList, List.mem_cons, List.not_mem_nil, or_false]
    rintro (h | h | h) <;> exact b64Char_ne_dot _ (by omega) h.symm
  | case4 b1 b2 b3 rest ih =>
    simp only [b64urlEncodeList, List.mem_cons]
    rintro (h | h | h | h | h)
    · exact b64Char_ne_dot _ (by omega) h.symm
    · exact b64Char_ne_dot _ (by omega) h.symm
    · exact b64Char_ne_dot _ (by omega) h.symm
    · exact b64Char_ne_dot _ (by omega) h.symm
    · exact ih h

/-- `get_token` performs exactly one refresh when `_should_refresh` holds
and none otherwise. -/
theorem getToken_refresh_count (hmacSha256 : List Nat → List Nat → List Nat)
    (teamId : String) (fetch : FetchResult) (n : Int) (st : TokenState) :
    (getToken hmacSha256 teamId fetch n st).2.2 =
      if shouldRefresh st n then 1 else 0 := by
  rw [getToken]
  by_cases hsr : shouldRefresh st n = true
  · rw [if_pos hsr, if_pos hsr]
    rcases hrt : refreshToken hmacSha256 teamId fetch n st with ⟨b, st'⟩
    cases b
    · rfl
    · cases hjt : st'.jwtToken <;> simp [hjt]
  · rw [if_neg hsr, if_neg hsr]
    cases hjt : st.jwtToken <;> simp [hjt]

/-- C7: a generated token is three dot-free segments joined with dots,
the third being the urlsafe-encoded HMAC-SHA256 of `header.payload` under
the base64-decoded signing secret, and the embedded payload's expiry is
exactly 300 seconds after its issued-at; `_should_refresh` holds exactly
when the token is absent/empty or has at most 30 seconds of validity
left, so `get_token` with 20 seconds remaining performs exactly one
refresh and with 100 seconds remaining performs none. -/
theorem C7_jwt_minting (hmacSha256 : List Nat → List Nat → List Nat)
    (xsrf teamId : String) (now : Int) :
    (∃ h p sg : String,
      generateJwt hmacSha256 xsrf teamId now = h ++ "." ++ p ++ "." ++ sg ∧
      '.' ∉ h.toList ∧ '.' ∉ p.toList ∧ '.' ∉ sg.toList ∧
      sg = b64urlEncode (hmacSha256 (b64decode xsrf)
        (strBytes (h ++ "." ++ p))) ∧
      p = b64urlEncode (strBytes (jwtPayloadJson
        ⟨"gemini-business", "gemini-business-api", teamId,
          now, now + 300, now⟩)) ∧
      (⟨"gemini-business", "gemini-business-api", teamId,
        now, now + 300, now⟩ : JwtPayload).exp =
        (⟨"gemini-business", "gemini-business-api", teamId,
          now, now + 300, now⟩ : JwtPayload).iat + 300) ∧
    (∀ (st : TokenState) (n : Int),
      shouldRefresh st n =
        (optStrFalsy st.jwtToken || decide (st.tokenExpiresAt - n ≤ 30))) ∧
    (∀ (st : TokenState) (tok : String) (fetch : FetchResult) (n : Int),
      st.jwtToken = some tok → tok ≠ "" →
      (st.tokenExpiresAt - n = 20 →
        (getToken hmacSha256 teamId fetch n st).2.2 = 1) ∧
      (st.tokenExpiresAt - n = 100 →
        (getToken hmacSha256 teamId fetch n st).2.2 = 0)) := by
  refine ⟨?_, ?_, ?_⟩
  · refine ⟨b64urlEncode (strBytes jwtHeaderJson),
      b64urlEncode (strBytes (jwtPayloadJson
        ⟨"gemini-business", "gemini-business-api", teamId,
          now, now + 300, now⟩)),
      b64urlEncode (hmacSha256 (b64decode xsrf)
        (strBytes (b64urlEncode (strBytes jwtHeaderJson) ++ "." ++
          b64urlEncode (strBytes (jwtPayloadJson
            ⟨"gemini-business", "gemini-business-api", teamId,
              now, now + 300, now⟩))))),
      rfl, b64urlEncodeList_no_dot _, b64urlEncodeList_no_dot _,
      b64urlEncodeList_no_dot _, rfl, rfl, rfl⟩
  · intro st n
    rw [shouldRefresh]
    by_cases hf : optStrFalsy st.jwtToken = true
    · simp [hf]
    · have hf2 : optStrFalsy st.jwtToken = false := eq_false_of_ne_true hf
      simp only [hf2, if_false, Bool.false_or]
      exact decide_eq_decide.mpr (by omega)
  · intro st tok fetch n hst htok
    have hie : tok.isEmpty = false :=
      Bool.eq_false_iff.mpr (fun hh => htok ((String.isEmpty_iff tok).mp hh))
    constructor
    · intro h20
      rw [getToken_refresh_count]
      have hsr : shouldRefresh st n = true := by
        rw [shouldRefresh, hst]
        simp [optStrFalsy, hie]
        omega
      rw [hsr]
      rfl
    · intro h100
      rw [getToken_refresh_count]
      have hsr : shouldRefresh st n = false := by
        rw [shouldRefresh, hst]
        simp [optStrFalsy, hie]
        omega
      rw [hsr]
      rfl

/-- Witness for C7: concrete minter states with 20 and 100 seconds of
remaining validity trigger one and zero refreshes respectively. -/
theorem C7_jwt_minting_witness :
    (getToken hmacStub "team-1" (.response 200 (some "QUJD") none) 100
        ⟨some "tok", 120, none, none⟩).2.2 = 1 ∧
    (getToken hmacStub "team-1" (.response 200 (some "QUJD") none) 100
        ⟨some "tok", 200, none, none⟩).2.2 = 0 :=
  have h := C7_jwt_minting hmacStub "QUJD" "team-1" 0
  ⟨(h.2.2 ⟨some "tok", 120, none, none⟩ "tok"
      (.response 200 (some "QUJD") none) 100 rfl (by decide)).1 (by decide),
   (h.2.2 ⟨some "tok", 200, none, none⟩ "tok"
      (.response 200 (some "QUJD") none) 100 rfl (by decide)).2 (by decide)⟩
